import Mathlib

/-
Verification development for the upstream-construction and bootstrap-resolution
subsystem of sieveLau/dnsproxy (files upstream/upstream.go and
proxy/bogusnxdomain.go), as a shallow embedding in Lean 4.

External collaborators (the Go standard library's net/url functions, the
golibs netutil helpers, the dnsstamps decoder, and the transport constructors)
are taken as function parameters of the embedded definitions; the control flow
of the repository's own code is translated faithfully.
-/

set_option autoImplicit false

/-- Model of Go error values as produced by this code: `GoErr.str` is a plain
error message, `GoErr.wrap` models `fmt.Errorf` with a `%w` verb (a message
wrapping a cause), and `GoErr.join` models a non-nil result of `errors.Join`
over the listed non-nil members. A Go `error` variable, which may be `nil`,
is modelled as `Option GoErr` with `none` for `nil`. -/
inductive GoErr : Type where
  | str (s : String)
  | wrap (msg : String) (cause : GoErr)
  | join (es : List GoErr)

/-- Model of `errors.Join(errs...)`: `nil` members are discarded; the result is
`nil` iff every member is `nil`, and otherwise an error holding every non-nil
member in order. -/
def goJoin (es : List (Option GoErr)) : Option GoErr :=
  match es.filterMap id with
  | [] => none
  | l => some (GoErr.join l)

/-- Model of an upstream-backed bootstrap resolver (the `upstreamResolver`
built by `NewUpstreamResolver` in upstream.go): `addr` is the bootstrap
address it was built from and `closeErr` is the error its `Close` method
returns (`none` for a successful close). -/
structure UResolverM : Type where
  addr : String
  closeErr : Option GoErr

/-- Model of the `Resolver` values appearing in the bootstrap chain built by
`newResolvers`: either the system default `&net.Resolver{}` or an
upstream-backed resolver. -/
inductive ResolverM : Type where
  | system
  | upstream (r : UResolverM)

/-- Test for a successful `Except` result, modelling a nil Go error return. -/
def exceptIsOk {ε α : Type} : Except ε α → Bool
  | Except.ok _ => true
  | Except.error _ => false

/-- Shallow embedding of the `for i, boot := range bootstraps` loop of
`newResolvers` (upstream.go lines 397-414). `mk` stands for the external
constructor `NewUpstreamResolver(boot, opts)`. The loop extends the
accumulators `rs` (resolvers) and `cs` (closeBoots); an empty entry appends
the system resolver, a failing entry sets `resolvers = nil`, produces the
index-naming error and breaks, and a successful entry appends both the
resolver and its close function. -/
def nrLoop (mk : String → Except GoErr UResolverM) :
    List String → Nat → List ResolverM → List UResolverM →
    List ResolverM × List UResolverM × Option GoErr
  | [], _, rs, cs => (rs, cs, none)
  | boot :: rest, i, rs, cs =>
    if boot = "" then
      nrLoop mk rest (i + 1) (rs ++ [ResolverM.system]) cs
    else
      match mk boot with
      | Except.error rErr =>
          ([], cs,
            some (GoErr.wrap (("preparing bootstrap resolver at index ") ++ toString i) rErr))
      | Except.ok r => nrLoop mk rest (i + 1) (rs ++ [ResolverM.upstream r]) (cs ++ [r])

/-- Shallow embedding of `newResolvers` (upstream.go lines 389-426) up to the
returned close function, which is determined by the returned `closeBoots`
list and modelled separately by `closeBootRun`. If the bootstrap list is
empty the chain is the single system resolver; otherwise the loop `nrLoop`
runs from index 0 with empty accumulators. -/
def newResolvers (mk : String → Except GoErr UResolverM) (bootstraps : List String) :
    List ResolverM × List UResolverM × Option GoErr :=
  if bootstraps.length = 0 then ([ResolverM.system], [], none)
  else nrLoop mk bootstraps 0 [] []

/-- Shallow embedding of the loop body of the close function returned by
`newResolvers` (upstream.go lines 418-423): `errs = append(errs, cb())` is
run for every member of `closeBoots`, collecting every close result in
order, with no early exit. -/
def closeBootLoop (cs : List UResolverM) : List (Option GoErr) :=
  cs.foldl (fun errs cb => errs ++ [cb.closeErr]) []

/-- Shallow embedding of the close function returned by `newResolvers`
(upstream.go lines 418-425): run every close, then `errors.Join` the
collected results. -/
def closeBootRun (cs : List UResolverM) : Option GoErr :=
  goJoin (closeBootLoop cs)

/-- Projection of the upstream-backed resolver out of a chain member, used to
state which chain members own a close action. -/
def upOfRes : ResolverM → Option UResolverM
  | ResolverM.system => none
  | ResolverM.upstream u => some u

/-- The chain member `newResolvers` builds for bootstrap entry `b` when
construction does not fail there: the system resolver for an empty entry,
otherwise the upstream-backed resolver returned by `mk`. -/
def resolverOf (mk : String → Except GoErr UResolverM) (b : String) : ResolverM :=
  if b = "" then ResolverM.system
  else
    match mk b with
    | Except.ok r => ResolverM.upstream r
    | Except.error _ => ResolverM.system

/-- The close-owning resolver `newResolvers` records for bootstrap entry `b`:
nothing for an empty entry, the constructed upstream-backed resolver
otherwise. -/
def upstreamOf (mk : String → Except GoErr UResolverM) (b : String) : Option UResolverM :=
  if b = "" then none
  else
    match mk b with
    | Except.ok r => some r
    | Except.error _ => none

/-- Model of the fields of `Options` (upstream.go lines 55-106) that the
claims under verification read: the bootstrap list, the explicit server IP
list, the timeout, and the IPv6 preference. The IP type `ι` is abstract
(`net.IP` is opaque to this subsystem; only `.String()` is called on it).
The defaults are the Go zero values, so `{}` is `&Options{}`. -/
structure OptionsM (ι : Type) : Type where
  bootstrap : List String := []
  serverIPAddrs : List ι := []
  timeout : Nat := 0
  preferIPv6 : Bool := false

/-- Model of a `bootstrap.DialHandler` built by `bootstrap.NewDialContext`
(upstream.go lines 344 and 349): it is fully determined by the timeout and
the list of addresses it dials. -/
structure DialHandlerM : Type where
  timeout : Nat
  addrs : List String

/-- The two successful outcomes of `newDialerInitializer`: `fast h` stands
for the pair of the constant initializer `func() { return h, nil }` and the
no-op close `nopClose` (upstream.go lines 346 and 351); `slow resolvers
closeBoots` stands for the memoizing initializer over the bootstrap chain
(modelled by `diInvoke`) together with the chain's close function (modelled
by `closeBootRun closeBoots`). -/
inductive DIOutcome : Type where
  | fast (handler : DialHandlerM)
  | slow (resolvers : List ResolverM) (closeBoots : List UResolverM)

/-- The Go-style multi-return of `newDialerInitializer`: `outcome` is `none`
exactly when `err` is set. -/
structure DIRet : Type where
  outcome : Option DIOutcome
  err : Option GoErr

/-- Shallow embedding of `newDialerInitializer` (upstream.go lines 327-384).
External parameters: `split` is `netutil.SplitHostPort` (returning the host
and the 16-bit port, or failing), `ipString` is `net.IP.String`, `joinHP` is
`netutil.JoinHostPort`, `isIPLiteral` is success of `netip.ParseAddr`, and
`mk` is `NewUpstreamResolver`. The split-failure branch wraps the
underlying netutil cause, which the abstract `split` does not carry, so that
branch keeps the message prefix only. -/
def newDialerInitializer {ι : Type} (split : String → Option (String × Nat))
    (ipString : ι → String) (joinHP : String → Nat → String)
    (isIPLiteral : String → Bool) (mk : String → Except GoErr UResolverM)
    (uHost : String) (opts : OptionsM ι) : DIRet :=
  match split uHost with
  | none => ⟨none, some (GoErr.str (("invalid address: ") ++ uHost))⟩
  | some (host, port) =>
    if opts.serverIPAddrs.length > 0 then
      ⟨some (DIOutcome.fast
          ⟨opts.timeout, opts.serverIPAddrs.map (fun addr => joinHP (ipString addr) port)⟩),
        none⟩
    else if isIPLiteral host then
      ⟨some (DIOutcome.fast ⟨opts.timeout, [uHost]⟩), none⟩
    else
      match newResolvers mk opts.bootstrap with
      | (resolvers, closeBoots, none) => ⟨some (DIOutcome.slow resolvers closeBoots), none⟩
      | (_, closeBoots, some e) => ⟨none, goJoin [some e, closeBootRun closeBoots]⟩

/-- The close operation paired with each outcome of `newDialerInitializer`:
`nopClose` on the fast paths, the chain close on the slow path. -/
def closeOfOutcome : DIOutcome → Option GoErr
  | DIOutcome.fast _ => none
  | DIOutcome.slow _ cbs => closeBootRun cbs

/-- Model of one invocation of the constant initializer returned on the fast
paths of `newDialerInitializer` (upstream.go lines 346 and 351): it returns
the precomputed handler and a nil error; the Boolean records whether
bootstrap resolution was performed during the invocation (never, here). -/
def fastInitInvoke (handler : DialHandlerM) : Except GoErr DialHandlerM × Bool :=
  (Except.ok handler, false)

/-- Shallow embedding of one invocation of the slow-path initializer closure
`di` of `newDialerInitializer` (upstream.go lines 360-381), over an abstract
handler type `η`. The `atomic.Pointer` cell is read twice: `cellLoad` is its
content at the initial `Load` and `cellCAS` its content at the
`CompareAndSwap` (they may differ under concurrency, but the cell is only
ever written by `CompareAndSwap(nil, ...)`, so once set it keeps its value).
`resolve` is this invocation's `bootstrap.ResolveDialContext` result. The
result is the cell content after the invocation, the returned
`(handler, error)` pair, and whether bootstrap resolution was performed. -/
def diInvoke {η : Type} (resolve : Except GoErr η) (cellLoad cellCAS : Option η) :
    Option η × Except GoErr η × Bool :=
  match cellLoad with
  | some h => (cellCAS, Except.ok h, false)
  | none =>
    match resolve with
    | Except.error e =>
        (cellCAS, Except.error (GoErr.wrap ("creating dial handler") e), true)
    | Except.ok h =>
      match cellCAS with
      | none => (some h, Except.ok h, true)
      | some hOther => (some hOther, Except.ok hOther, true)

/-- Shallow embedding of the server-address handling of `parseStamp`
(upstream.go lines 241-255). `serverAddrStr` is `stamp.ServerAddrStr` from
the decoded stamp; `splitHost` is the host projection of
`netutil.SplitHostPort` (with the fallback to the whole string on split
failure); `parseIP` is `net.ParseIP`. On success it returns the options as
mutated by `opts.ServerIPAddrs = []net.IP{ip}`. -/
def parseStampServerAddr {ι : Type} (splitHost : String → Option String)
    (parseIP : String → Option ι)
    (serverAddrStr : String) (opts : OptionsM ι) : Except GoErr (OptionsM ι) :=
  if serverAddrStr = "" then Except.ok opts
  else
    let host :=
      match splitHost serverAddrStr with
      | some h => h
      | none => serverAddrStr
    match parseIP host with
    | none => Except.error (GoErr.str (("invalid server stamp address ") ++ serverAddrStr))
    | some ip => Except.ok { opts with serverIPAddrs := [ip] }

/-- Model of the URL value produced by the parsing stage of
`AddressToUpstream`; only the fields this stage writes are kept. -/
structure URLm : Type where
  scheme : String
  host : String

/-- Helper for the substring test: whether the pattern is a prefix of the
character list. -/
def listHasPrefix : List Char → List Char → Bool
  | [], _ => true
  | _ :: _, [] => false
  | p :: ps, c :: cs => if p = c then listHasPrefix ps cs else false

/-- Helper for the substring test: whether the pattern occurs somewhere in
the character list. -/
def listHasInfix (pat : List Char) : List Char → Bool
  | [] => listHasPrefix pat []
  | c :: cs => if listHasPrefix pat (c :: cs) then true else listHasInfix pat cs

/-- Model of `strings.Contains(addr, "://")`: the scheme separator occurs
somewhere in the address. -/
def containsSchemeSep (addr : String) : Bool :=
  listHasInfix ([':', '/', '/']) addr.toList

/-- Model of `strconv.ParseUint(port, 10, 16)` as used by
`AddressToUpstream`: the string must be non-empty, all decimal digits, and
the value must fit in 16 bits; otherwise the parse fails. -/
def parseUint16 (s : String) : Option Nat :=
  if s = "" then none
  else if s.toList.all (fun c => c.isDigit) then
    if s.toList.foldl (fun a c => a * 10 + (c.toNat - 48)) 0 < 65536 then
      some (s.toList.foldl (fun a c => a * 10 + (c.toNat - 48)) 0)
    else none
  else none

/-- Shallow embedding of the parsing stage of `AddressToUpstream`
(upstream.go lines 188-212), which runs before any I/O. `urlParse` is the
external `url.Parse` (its error text abstracted as a string) and
`splitHostPort` is the external `net.SplitHostPort`. URL-shaped input is
parsed as a URL and rejected if invalid; bare input that splits into host
and port is rejected if the port fails the 16-bit parse; all other bare
input becomes a plain `udp` URL. -/
def addressToUpstreamParse (urlParse : String → Except String URLm)
    (splitHostPort : String → Option (String × String))
    (addr : String) : Except String URLm :=
  if containsSchemeSep addr then
    match urlParse addr with
    | Except.error e => Except.error (("failed to parse ") ++ addr ++ (": ") ++ e)
    | Except.ok uu => Except.ok uu
  else
    match splitHostPort addr with
    | some (_, port) =>
      match parseUint16 port with
      | none => Except.error (("invalid address ") ++ addr)
      | some _ => Except.ok { scheme := "udp", host := addr }
    | none => Except.ok { scheme := "udp", host := addr }

/-- Shallow embedding of the nil-options normalization at the top of
`AddressToUpstream` (upstream.go lines 184-186): a nil `*Options` is
replaced by a fresh zero-value `&Options{}`. -/
def addressToUpstreamOpts {ι : Type} (opts : Option (OptionsM ι)) : OptionsM ι :=
  match opts with
  | none => {}
  | some o => o

/-- Model of `AddressToUpstream` up to the boundary of this subsystem: the
options pointer is normalized, the address is parsed, and the parsed URL is
handed together with the effective options to `urlToUpstream`. -/
def addressToUpstreamModel {ι : Type} (urlParse : String → Except String URLm)
    (splitHostPort : String → Option (String × String)) (addr : String)
    (opts : Option (OptionsM ι)) : Except String (URLm × OptionsM ι) :=
  match addressToUpstreamParse urlParse splitHostPort addr with
  | Except.error e => Except.error e
  | Except.ok uu => Except.ok (uu, addressToUpstreamOpts opts)

/-- The DNS record type A (`dns.TypeA`). -/
def typeA : Nat := 1

/-- The DNS record type AAAA (`dns.TypeAAAA`). -/
def typeAAAA : Nat := 28

/-- Model of the parts of `*dns.Msg` read by `isBogusNXDomain`: the question
section reduced to the `Qtype` of each question, and the answer section over
an abstract resource-record type `ρ`. -/
structure DNSMsgM (ρ : Type) : Type where
  question : List Nat
  answer : List ρ

/-- Shallow embedding of `containsIP` (bogusnxdomain.go lines 30-42) over an
abstract IP type `α`: `validate` is success of `netutil.ValidateIP` and
`memNet` is `(*net.IPNet).Contains`. An invalid IP is rejected; otherwise
the subnets are scanned for one containing the IP. -/
def containsIP {α σ : Type} (validate : α → Bool) (memNet : σ → α → Bool)
    (nets : List σ) (ip : α) : Bool :=
  if validate ip = false then false
  else nets.any (fun n => memNet n ip)

/-- Shallow embedding of `(*Proxy).isBogusNXDomain` (bogusnxdomain.go lines
13-28): `ipFromRR` is the external `proxyutil.IPFromRR`, `bogusNXDomain` is
`p.BogusNXDomain`, and the message is `Option`-valued to model the nil
check. The guards mirror the source: nil message, empty subnet list or
empty question section give false; a first question type other than A or
AAAA gives false; otherwise the answer records are scanned. -/
def isBogusNXDomain {α σ ρ : Type} (validate : α → Bool) (memNet : σ → α → Bool)
    (ipFromRR : ρ → α) (bogusNXDomain : List σ) (m : Option (DNSMsgM ρ)) : Bool :=
  match m with
  | none => false
  | some msg =>
    if bogusNXDomain.length = 0 ∨ msg.question.length = 0 then false
    else if msg.question.headD 0 ≠ typeA ∧ msg.question.headD 0 ≠ typeAAAA then false
    else msg.answer.any (fun rr => containsIP validate memNet bogusNXDomain (ipFromRR rr))

/-- Helper: the close loop of `newResolvers` collects exactly the close
result of every member of `closeBoots`, in order. -/
theorem closeBootLoop_eq (cs : List UResolverM) :
    closeBootLoop cs = cs.map (fun c => c.closeErr) := by
  have h : ∀ (l : List UResolverM) (acc : List (Option GoErr)),
      l.foldl (fun errs cb => errs ++ [cb.closeErr]) acc =
        acc ++ l.map (fun c => c.closeErr) := by
    intro l
    induction l with
    | nil => intro acc; simp
    | cons x xs ih => intro acc; simp [ih]
  simpa [closeBootLoop] using h cs []

/-- C1: on the slow path, once the memoization cell of the dialer
initializer has been set to a handler h by a first successful invocation,
every subsequent invocation returns exactly that stored handler with a nil
error and performs no bootstrap resolution, and no invocation ever changes
the content of a set cell: the cell keeps the value h for the lifetime of
the Upstream instance. -/
theorem dialerInitializer_memoized {η : Type} (resolve : Except GoErr η) (h : η) :
    diInvoke resolve (some h) (some h) = (some h, Except.ok h, false) ∧
    ∀ (resolve2 : Except GoErr η) (cellLoad : Option η),
      (diInvoke resolve2 cellLoad (some h)).1 = some h := by
  refine ⟨rfl, ?_⟩
  intro resolve2 cellLoad
  cases cellLoad with
  | some h0 => rfl
  | none =>
    cases resolve2 with
    | error e => rfl
    | ok h2 => rfl

/-- C4: on the slow path, an invocation of the dialer initializer whose
bootstrap resolution fails returns an error wrapping the resolution cause,
writes nothing to the memoization cell (whatever its content, in particular
it stays unset if it was unset), and a next invocation whose resolution
succeeds performs the resolution from scratch and memoizes the handler:
only successful handlers are stored. -/
theorem dialerInitializer_error_not_sticky {η : Type} (e : GoErr) (cellCAS : Option η) (h : η) :
    diInvoke (Except.error e) none cellCAS =
      (cellCAS, Except.error (GoErr.wrap ("creating dial handler") e), true) ∧
    diInvoke (Except.ok h) none none = (some h, Except.ok h, true) :=
  ⟨rfl, rfl⟩

/-- C10: calling AddressToUpstream with a nil Options pointer behaves
identically to calling it with a pointer to a fresh zero-value Options: the
nil is normalized away before any downstream use, so construction proceeds
on the zero value and no nil pointer reaches the rest of the pipeline. -/
theorem addressToUpstream_nil_options {ι : Type} (urlParse : String → Except String URLm)
    (splitHostPort : String → Option (String × String)) (addr : String) :
    addressToUpstreamModel (ι := ι) urlParse splitHostPort addr none =
      addressToUpstreamModel urlParse splitHostPort addr (some {}) := by
  unfold addressToUpstreamModel
  cases addressToUpstreamParse urlParse splitHostPort addr with
  | error e => rfl
  | ok uu => rfl

/-- Helper: when every non-empty entry of the list constructs successfully,
the `newResolvers` loop appends one chain member per entry in order and
records exactly the upstream-backed ones for closing, reporting no error. -/
theorem nrLoop_all_ok (mk : String → Except GoErr UResolverM) (pre : List String)
    (h : ∀ x ∈ pre, x ≠ "" → exceptIsOk (mk x) = true) :
    ∀ (i : Nat) (rs : List ResolverM) (cs : List UResolverM),
      nrLoop mk pre i rs cs =
        (rs ++ pre.map (resolverOf mk), cs ++ pre.filterMap (upstreamOf mk), none) := by
  induction pre with
  | nil => intro i rs cs; simp [nrLoop]
  | cons x xs ih =>
    intro i rs cs
    have hxs : ∀ y ∈ xs, y ≠ "" → exceptIsOk (mk y) = true := by
      intro y hy hne
      exact h y (List.mem_cons_of_mem x hy) hne
    by_cases hxe : x = ""
    · subst hxe
      simp [nrLoop, ih hxs, resolverOf, upstreamOf, List.append_assoc]
    · cases hmk : mk x with
      | error e =>
        exfalso
        have := h x (List.mem_cons_self x xs) hxe
        rw [hmk] at this
        simp [exceptIsOk] at this
      | ok r =>
        simp [nrLoop, hxe, hmk, ih hxs, resolverOf, upstreamOf, List.append_assoc]

/-- Helper: when the entries of `pre` all construct successfully, the entry
`b` is non-empty and fails with `cause`, the `newResolvers` loop run on
`pre ++ b :: rest` aborts with nil resolvers, the close list of exactly the
upstream-backed resolvers built from `pre`, and the error naming the index
of `b`; the entries of `rest` are never examined (the result does not
depend on them). -/
theorem nrLoop_fail (mk : String → Except GoErr UResolverM) (pre : List String)
    (h : ∀ x ∈ pre, x ≠ "" → exceptIsOk (mk x) = true)
    (b : String) (hb : b ≠ "") (cause : GoErr) (hc : mk b = Except.error cause)
    (rest : List String) :
    ∀ (i : Nat) (rs : List ResolverM) (cs : List UResolverM),
      nrLoop mk (pre ++ b :: rest) i rs cs =
        ([], cs ++ pre.filterMap (upstreamOf mk),
          some (GoErr.wrap
            (("preparing bootstrap resolver at index ") ++ toString (i + pre.length))
            cause)) := by
  induction pre with
  | nil =>
    intro i rs cs
    simp [nrLoop, hb, hc]
  | cons x xs ih =>
    intro i rs cs
    have hxs : ∀ y ∈ xs, y ≠ "" → exceptIsOk (mk y) = true := by
      intro y hy hne
      exact h y (List.mem_cons_of_mem x hy) hne
    have harith : i + 1 + xs.length = i + (xs.length + 1) := by omega
    by_cases hxe : x = ""
    · subst hxe
      simp [nrLoop, ih hxs, upstreamOf, harith, List.append_assoc]
    · cases hmk : mk x with
      | error e =>
        exfalso
        have := h x (List.mem_cons_self x xs) hxe
        rw [hmk] at this
        simp [exceptIsOk] at this
      | ok r =>
        simp [nrLoop, hxe, hmk, ih hxs, upstreamOf, harith, List.append_assoc]

/-- Helper: the `newResolvers` loop maintains the invariant that the close
list holds exactly the upstream-backed members of the resolver list, so a
successful run establishes it for the returned lists. -/
theorem nrLoop_closeBoots_inv (mk : String → Except GoErr UResolverM) :
    ∀ (bs : List String) (i : Nat) (rs : List ResolverM) (cs : List UResolverM)
      (rs2 : List ResolverM) (cs2 : List UResolverM),
      cs = rs.filterMap upOfRes →
      nrLoop mk bs i rs cs = (rs2, cs2, none) →
      cs2 = rs2.filterMap upOfRes := by
  intro bs
  induction bs with
  | nil =>
    intro i rs cs rs2 cs2 hinv heq
    simp only [nrLoop, Prod.mk.injEq] at heq
    obtain ⟨h1, h2, -⟩ := heq
    rw [← h1, ← h2, hinv]
  | cons x xs ih =>
    intro i rs cs rs2 cs2 hinv heq
    by_cases hxe : x = ""
    · subst hxe
      simp only [nrLoop, if_pos rfl] at heq
      refine ih (i + 1) (rs ++ [ResolverM.system]) cs rs2 cs2 ?_ heq
      simp [hinv, upOfRes]
    · cases hmk : mk x with
      | error e => simp [nrLoop, hxe, hmk] at heq
      | ok r =>
        simp only [nrLoop, if_neg hxe, hmk] at heq
        refine ih (i + 1) (rs ++ [ResolverM.upstream r]) (cs ++ [r]) rs2 cs2 ?_ heq
        simp [hinv, upOfRes]

/-- C5: for every successfully constructed bootstrap chain, the close list
driving the returned close operation holds exactly the upstream-backed
members of the chain (system-default positions contribute no close action),
and the close operation invokes the close of every one of them in order
with no short-circuit, returning all encountered close errors joined into
one by `errors.Join`. -/
theorem newResolvers_close_all (mk : String → Except GoErr UResolverM)
    (bootstraps : List String) (resolvers : List ResolverM) (closeBoots : List UResolverM)
    (hsucc : newResolvers mk bootstraps = (resolvers, closeBoots, none)) :
    closeBoots = resolvers.filterMap upOfRes ∧
    closeBootLoop closeBoots = closeBoots.map (fun c => c.closeErr) ∧
    closeBootRun closeBoots = goJoin (closeBoots.map (fun c => c.closeErr)) := by
  refine ⟨?_, closeBootLoop_eq closeBoots, by rw [closeBootRun, closeBootLoop_eq]⟩
  unfold newResolvers at hsucc
  by_cases hl : bootstraps.length = 0
  · rw [if_pos hl] at hsucc
    simp only [Prod.mk.injEq] at hsucc
    obtain ⟨h1, h2, -⟩ := hsucc
    rw [← h1, ← h2]
    simp [upOfRes]
  · rw [if_neg hl] at hsucc
    exact nrLoop_closeBoots_inv mk bootstraps 0 [] [] resolvers closeBoots (by simp) hsucc

/-- C8: the shape of the chain built by `newResolvers`. When the bootstrap
list is empty the chain is exactly one system-default resolver; otherwise,
provided every non-empty entry constructs successfully, the chain has one
member per entry in positional order — the system-default resolver for an
empty entry, the upstream-backed resolver built from the entry otherwise —
and the close list collects exactly the upstream-backed members. -/
theorem newResolvers_shape (mk : String → Except GoErr UResolverM) (bootstraps : List String)
    (hok : ∀ x ∈ bootstraps, x ≠ "" → exceptIsOk (mk x) = true) :
    newResolvers mk bootstraps =
      ((if bootstraps.length = 0 then [ResolverM.system] else bootstraps.map (resolverOf mk)),
        bootstraps.filterMap (upstreamOf mk), none) := by
  unfold newResolvers
  by_cases hl : bootstraps.length = 0
  · rw [if_pos hl, if_pos hl]
    have hnil : bootstraps = [] := List.length_eq_zero.mp hl
    subst hnil
    simp
  · rw [if_neg hl, if_neg hl]
    simpa using nrLoop_all_ok mk bootstraps hok 0 [] []

/-- C3: on the slow path of `newDialerInitializer`, when chain construction
first fails at the entry `b` (index `pre.length`, all earlier entries
succeeding), construction aborts — the result does not depend on the
entries of `rest`, so no later resolver is built — every upstream-backed
resolver built at the earlier indices is closed by the unwinding close
call, and the returned error joins the index-naming wrap of the underlying
cause with the joined close errors of exactly those resolvers, dropping
none. -/
theorem newDialerInitializer_chain_failure {ι : Type}
    (split : String → Option (String × Nat)) (ipString : ι → String)
    (joinHP : String → Nat → String) (isIPLiteral : String → Bool)
    (mk : String → Except GoErr UResolverM) (uHost host : String) (port : Nat)
    (opts : OptionsM ι) (pre : List String) (b : String) (rest : List String) (cause : GoErr)
    (hsplit : split uHost = some (host, port))
    (hips : opts.serverIPAddrs = [])
    (hip : isIPLiteral host = false)
    (hboot : opts.bootstrap = pre ++ b :: rest)
    (hpre : ∀ x ∈ pre, x ≠ "" → exceptIsOk (mk x) = true)
    (hb : b ≠ "") (hc : mk b = Except.error cause) :
    newDialerInitializer split ipString joinHP isIPLiteral mk uHost opts =
      ⟨none,
        goJoin
          [some (GoErr.wrap
              (("preparing bootstrap resolver at index ") ++ toString pre.length) cause),
            closeBootRun (pre.filterMap (upstreamOf mk))]⟩ := by
  unfold newDialerInitializer
  rw [hsplit]
  have hlen : (pre ++ b :: rest).length ≠ 0 := by simp
  have hres : newResolvers mk opts.bootstrap =
      ([], pre.filterMap (upstreamOf mk),
        some (GoErr.wrap
          (("preparing bootstrap resolver at index ") ++ toString pre.length) cause)) := by
    rw [hboot]
    unfold newResolvers
    rw [if_neg hlen, nrLoop_fail mk pre hpre b hb cause hc rest 0 [] []]
    simp
  rw [hips]
  simp only [List.length_nil, gt_iff_lt, Nat.lt_irrefl, if_false, hip, hres]
  simp

/-- C2: whenever the URL's host splits into a host and a port and either the
options carry a non-empty explicit server IP list or the host is a literal
IP address, `newDialerInitializer` takes the fast path: it returns, with no
error, the static handler built from the explicit addresses joined with the
configured port (or from the literal host when the explicit list is empty),
the same result for every bootstrap constructor `mk2` — the bootstrap
resolver chain is never constructed or queried — the returned constant
initializer always yields the precomputed handler with a nil error and no
resolution, and the returned close operation is a no-op. -/
theorem newDialerInitializer_fast_path {ι : Type}
    (split : String → Option (String × Nat)) (ipString : ι → String)
    (joinHP : String → Nat → String) (isIPLiteral : String → Bool)
    (uHost host : String) (port : Nat) (opts : OptionsM ι)
    (hsplit : split uHost = some (host, port))
    (hfast : opts.serverIPAddrs ≠ [] ∨ isIPLiteral host = true) :
    ∃ handler : DialHandlerM,
      (∀ mk2 : String → Except GoErr UResolverM,
        newDialerInitializer split ipString joinHP isIPLiteral mk2 uHost opts =
          ⟨some (DIOutcome.fast handler), none⟩) ∧
      handler.timeout = opts.timeout ∧
      (opts.serverIPAddrs ≠ [] →
        handler.addrs = opts.serverIPAddrs.map (fun addr => joinHP (ipString addr) port)) ∧
      (opts.serverIPAddrs = [] → handler.addrs = [uHost]) ∧
      fastInitInvoke handler = (Except.ok handler, false) ∧
      closeOfOutcome (DIOutcome.fast handler) = none := by
  by_cases hips : opts.serverIPAddrs = []
  · have hip : isIPLiteral host = true := by
      rcases hfast with hne | hip
      · exact absurd hips hne
      · exact hip
    refine ⟨⟨opts.timeout, [uHost]⟩, ?_, rfl, ?_, fun _ => rfl, rfl, rfl⟩
    · intro mk2
      unfold newDialerInitializer
      rw [hsplit, hips]
      simp [hip]
    · intro hne
      exact absurd hips hne
  · refine ⟨⟨opts.timeout, opts.serverIPAddrs.map (fun addr => joinHP (ipString addr) port)⟩,
      ?_, rfl, fun _ => rfl, ?_, rfl, rfl⟩
    · intro mk2
      unfold newDialerInitializer
      rw [hsplit]
      have hlen : opts.serverIPAddrs.length > 0 := by
        cases hl : opts.serverIPAddrs with
        | nil => exact absurd hl hips
        | cons a as => simp
      simp [hlen]
    · intro hnil
      exact absurd hnil hips

/-- C6: when a decoded stamp carries a non-empty literal server address
whose host component parses as an IP, the options produced by `parseStamp`
carry exactly the one-element server address list holding that IP: the
previously configured explicit list is discarded wholesale, not merged or
appended to. -/
theorem parseStamp_replaces_server_addrs {ι : Type} (splitHost : String → Option String)
    (parseIP : String → Option ι) (serverAddrStr : String) (opts : OptionsM ι) (ip : ι)
    (hne : serverAddrStr ≠ "")
    (hip : parseIP
        (match splitHost serverAddrStr with
          | some h => h
          | none => serverAddrStr) = some ip) :
    parseStampServerAddr splitHost parseIP serverAddrStr opts =
      Except.ok { opts with serverIPAddrs := [ip] } := by
  unfold parseStampServerAddr
  rw [if_neg hne]
  simp [hip]

/-- C7: the parsing stage of `AddressToUpstream` (run before any I/O)
rejects the input with a malformed-address error exactly when the input is
URL-shaped but `url.Parse` fails on it, or the input is bare, splits into a
host and a colon-delimited port suffix, and that suffix fails the 16-bit
port parse; moreover every such error message embeds the offending input. -/
theorem addressToUpstream_malformed_iff (urlParse : String → Except String URLm)
    (splitHostPort : String → Option (String × String)) (addr : String) :
    ((∃ msg, addressToUpstreamParse urlParse splitHostPort addr = Except.error msg) ↔
      ((containsSchemeSep addr = true ∧ ∃ e, urlParse addr = Except.error e) ∨
        (containsSchemeSep addr = false ∧
          ∃ hostPart portPart, splitHostPort addr = some (hostPart, portPart) ∧
            parseUint16 portPart = none))) ∧
    (∀ msg, addressToUpstreamParse urlParse splitHostPort addr = Except.error msg →
      ∃ p q, msg = p ++ addr ++ q) := by
  refine ⟨⟨?_, ?_⟩, ?_⟩
  · rintro ⟨msg, hmsg⟩
    by_cases hc : containsSchemeSep addr = true
    · cases hu : urlParse addr with
      | error e => exact Or.inl ⟨hc, e, rfl⟩
      | ok uu =>
        have hv : addressToUpstreamParse urlParse splitHostPort addr = Except.ok uu := by
          unfold addressToUpstreamParse
          rw [if_pos hc, hu]
        rw [hv] at hmsg
        cases hmsg
    · have hcf : containsSchemeSep addr = false := by simpa using hc
      cases hs : splitHostPort addr with
      | none =>
        have hv : addressToUpstreamParse urlParse splitHostPort addr =
            Except.ok { scheme := "udp", host := addr } := by
          unfold addressToUpstreamParse
          rw [if_neg hc, hs]
        rw [hv] at hmsg
        cases hmsg
      | some pr =>
        obtain ⟨h0, p0⟩ := pr
        cases hp : parseUint16 p0 with
        | none => exact Or.inr ⟨hcf, h0, p0, rfl, hp⟩
        | some v =>
          have hv : addressToUpstreamParse urlParse splitHostPort addr =
              Except.ok { scheme := "udp", host := addr } := by
            unfold addressToUpstreamParse
            rw [if_neg hc, hs]
            simp [hp]
          rw [hv] at hmsg
          cases hmsg
  · rintro (⟨hc, e, hu⟩ | ⟨hc, hostPart, portPart, hs, hp⟩)
    · refine ⟨("failed to parse ") ++ addr ++ (": ") ++ e, ?_⟩
      unfold addressToUpstreamParse
      rw [if_pos hc, hu]
    · refine ⟨("invalid address ") ++ addr, ?_⟩
      unfold addressToUpstreamParse
      rw [if_neg (by rw [hc]; exact Bool.false_ne_true), hs]
      simp [hp]
  · intro msg hmsg
    by_cases hc : containsSchemeSep addr = true
    · cases hu : urlParse addr with
      | error e =>
        have hv : addressToUpstreamParse urlParse splitHostPort addr =
            Except.error (("failed to parse ") ++ addr ++ (": ") ++ e) := by
          unfold addressToUpstreamParse
          rw [if_pos hc, hu]
        rw [hv] at hmsg
        injection hmsg with hm
        refine ⟨("failed to parse "), (": ") ++ e, ?_⟩
        rw [← hm]
        simp [String.append_assoc]
      | ok uu =>
        have hv : addressToUpstreamParse urlParse splitHostPort addr = Except.ok uu := by
          unfold addressToUpstreamParse
          rw [if_pos hc, hu]
        rw [hv] at hmsg
        cases hmsg
    · cases hs : splitHostPort addr with
      | none =>
        have hv : addressToUpstreamParse urlParse splitHostPort addr =
            Except.ok { scheme := "udp", host := addr } := by
          unfold addressToUpstreamParse
          rw [if_neg hc, hs]
        rw [hv] at hmsg
        cases hmsg
      | some pr =>
        obtain ⟨h0, p0⟩ := pr
        cases hp : parseUint16 p0 with
        | none =>
          have hv : addressToUpstreamParse urlParse splitHostPort addr =
              Except.error (("invalid address ") ++ addr) := by
            unfold addressToUpstreamParse
            rw [if_neg hc, hs]
            simp [hp]
          rw [hv] at hmsg
          injection hmsg with hm
          refine ⟨("invalid address "), (""), ?_⟩
          rw [← hm]
          simp
        | some v =>
          have hv : addressToUpstreamParse urlParse splitHostPort addr =
              Except.ok { scheme := "udp", host := addr } := by
            unfold addressToUpstreamParse
            rw [if_neg hc, hs]
            simp [hp]
          rw [hv] at hmsg
          cases hmsg

/-- Helper: characterization of `containsIP` — it holds exactly when the IP
is valid and some configured subnet contains it. -/
theorem containsIP_eq_true {α σ : Type} (validate : α → Bool) (memNet : σ → α → Bool)
    (nets : List σ) (ip : α) :
    containsIP validate memNet nets ip = true ↔
      validate ip = true ∧ ∃ n, n ∈ nets ∧ memNet n ip = true := by
  unfold containsIP
  cases hv : validate ip <;> simp [List.any_eq_true]

/-- C9: `isBogusNXDomain` returns true exactly when the message is non-nil,
the configured BogusNXDomain subnet list is non-empty, the message has at
least one question, the first question's type is A or AAAA, and some answer
record yields a valid IP address contained in at least one configured
subnet; in every other case it returns false. -/
theorem isBogusNXDomain_iff {α σ ρ : Type} (validate : α → Bool) (memNet : σ → α → Bool)
    (ipFromRR : ρ → α) (nets : List σ) (m : Option (DNSMsgM ρ)) :
    isBogusNXDomain validate memNet ipFromRR nets m = true ↔
      ∃ msg, m = some msg ∧ nets ≠ [] ∧ msg.question ≠ [] ∧
        (msg.question.headD 0 = typeA ∨ msg.question.headD 0 = typeAAAA) ∧
        ∃ rr, rr ∈ msg.answer ∧ validate (ipFromRR rr) = true ∧
          ∃ n, n ∈ nets ∧ memNet n (ipFromRR rr) = true := by
  cases m with
  | none => simp [isBogusNXDomain]
  | some msg =>
    have hred : isBogusNXDomain validate memNet ipFromRR nets (some msg) =
        (if nets.length = 0 ∨ msg.question.length = 0 then false
          else if msg.question.headD 0 ≠ typeA ∧ msg.question.headD 0 ≠ typeAAAA then false
          else msg.answer.any fun rr => containsIP validate memNet nets (ipFromRR rr)) := rfl
    rw [hred]
    by_cases h1 : nets.length = 0 ∨ msg.question.length = 0
    · rw [if_pos h1]
      simp only [Bool.false_eq_true, false_iff, not_exists]
      rintro msg2 ⟨hm, hnets, hq, -⟩
      injection hm with hm2
      subst hm2
      rcases h1 with h1 | h1
      · exact hnets (List.length_eq_zero.mp h1)
      · exact hq (List.length_eq_zero.mp h1)
    · rw [if_neg h1]
      rw [not_or] at h1
      obtain ⟨hnets, hq⟩ := h1
      by_cases h2 : msg.question.headD 0 ≠ typeA ∧ msg.question.headD 0 ≠ typeAAAA
      · rw [if_pos h2]
        simp only [Bool.false_eq_true, false_iff, not_exists]
        rintro msg2 ⟨hm, -, -, hqt, -⟩
        injection hm with hm2
        subst hm2
        rcases hqt with hqt | hqt
        · exact h2.1 hqt
        · exact h2.2 hqt
      · rw [if_neg h2]
        constructor
        · intro h
          rw [List.any_eq_true] at h
          obtain ⟨rr, hrr, hcont⟩ := h
          rw [containsIP_eq_true] at hcont
          obtain ⟨hval, n, hn, hmem⟩ := hcont
          refine ⟨msg, rfl, fun hnil => hnets (by rw [hnil]; rfl),
            fun hnil => hq (by rw [hnil]; rfl), ?_, rr, hrr, hval, n, hn, hmem⟩
          rcases not_and_or.mp h2 with h | h
          · exact Or.inl (not_not.mp h)
          · exact Or.inr (not_not.mp h)
        · rintro ⟨msg2, hm, -, -, -, rr, hrr, hval, n, hn, hmem⟩
          injection hm with hm2
          subst hm2
          rw [List.any_eq_true]
          exact ⟨rr, hrr, (containsIP_eq_true validate memNet nets (ipFromRR rr)).mpr
            ⟨hval, n, hn, hmem⟩⟩

/-- Concrete host-port splitter used by the witness theorems. -/
def wSplit : String → Option (String × Nat) := fun s =>
  if s = "dns.example:853" then some (("dns.example"), 853) else none

/-- Concrete IP-to-string function used by the witness theorems (IPs are
represented as their strings). -/
def wIpString : String → String := fun s => s

/-- Concrete host-port joiner used by the witness theorems. -/
def wJoinHP : String → Nat → String := fun h p => h ++ (":") ++ toString p

/-- Concrete IP-literal test used by the witness theorems. -/
def wIsIP : String → Bool := fun _ => false

/-- Concrete bootstrap-resolver constructor used by the witness theorems:
the entry bad fails to construct, the entry closefail constructs a
resolver whose close reports an error, every other entry constructs a
cleanly closing resolver. -/
def wMk : String → Except GoErr UResolverM := fun b =>
  if b = "bad" then Except.error (GoErr.str ("boom"))
  else
    Except.ok
      { addr := b,
        closeErr := if b = "closefail" then some (GoErr.str ("closeboom")) else none }

/-- Concrete options with a non-empty explicit server IP list, used by the
witness theorems. -/
def wOptsFast : OptionsM String := { serverIPAddrs := [("9.9.9.9")] }

/-- Concrete options whose bootstrap list fails at index 2, used by the
witness theorems. -/
def wOptsBoot : OptionsM String := { bootstrap := [(""), ("closefail"), ("bad"), ("after")] }

/-- Witness for C2: with explicit server address 9.9.9.9 configured, the
initializer construction takes the fast path at a concrete input. -/
theorem newDialerInitializer_fast_path_witness :
    ∃ handler : DialHandlerM,
      (∀ mk2 : String → Except GoErr UResolverM,
        newDialerInitializer wSplit wIpString wJoinHP wIsIP mk2 ("dns.example:853") wOptsFast =
          ⟨some (DIOutcome.fast handler), none⟩) ∧
      handler.timeout = wOptsFast.timeout ∧
      (wOptsFast.serverIPAddrs ≠ [] →
        handler.addrs = wOptsFast.serverIPAddrs.map (fun addr => wJoinHP (wIpString addr) 853)) ∧
      (wOptsFast.serverIPAddrs = [] → handler.addrs = [("dns.example:853")]) ∧
      fastInitInvoke handler = (Except.ok handler, false) ∧
      closeOfOutcome (DIOutcome.fast handler) = none :=
  newDialerInitializer_fast_path wSplit wIpString wJoinHP wIsIP ("dns.example:853")
    ("dns.example") 853 wOptsFast rfl (Or.inl (by decide))

/-- Witness for C3: with bootstrap list containing an empty entry, a
resolver whose close fails, a failing entry and a further entry, the
construction aborts at index 2 with the joined error at a concrete
input. -/
theorem newDialerInitializer_chain_failure_witness :
    newDialerInitializer wSplit wIpString wJoinHP wIsIP wMk ("dns.example:853") wOptsBoot =
      ⟨none,
        goJoin
          [some (GoErr.wrap
              (("preparing bootstrap resolver at index ") ++
                toString (List.length [(""), ("closefail")])) (GoErr.str ("boom"))),
            closeBootRun (List.filterMap (upstreamOf wMk) [(""), ("closefail")])]⟩ :=
  newDialerInitializer_chain_failure wSplit wIpString wJoinHP wIsIP wMk ("dns.example:853")
    ("dns.example") 853 wOptsBoot [(""), ("closefail")] ("bad") [("after")]
    (GoErr.str ("boom")) rfl rfl rfl rfl (by decide) (by decide) rfl

/-- Witness for C5: the close list and close behavior of a concrete
successfully built chain. -/
theorem newResolvers_close_all_witness :
    [UResolverM.mk ("good") none,
        UResolverM.mk ("closefail") (some (GoErr.str ("closeboom")))] =
      List.filterMap upOfRes
        [ResolverM.system, ResolverM.upstream (UResolverM.mk ("good") none),
          ResolverM.upstream (UResolverM.mk ("closefail") (some (GoErr.str ("closeboom"))))] ∧
    closeBootLoop
        [UResolverM.mk ("good") none,
          UResolverM.mk ("closefail") (some (GoErr.str ("closeboom")))] =
      List.map (fun c => c.closeErr)
        [UResolverM.mk ("good") none,
          UResolverM.mk ("closefail") (some (GoErr.str ("closeboom")))] ∧
    closeBootRun
        [UResolverM.mk ("good") none,
          UResolverM.mk ("closefail") (some (GoErr.str ("closeboom")))] =
      goJoin
        (List.map (fun c => c.closeErr)
          [UResolverM.mk ("good") none,
            UResolverM.mk ("closefail") (some (GoErr.str ("closeboom")))]) :=
  newResolvers_close_all wMk [(""), ("good"), ("closefail")]
    [ResolverM.system, ResolverM.upstream (UResolverM.mk ("good") none),
      ResolverM.upstream (UResolverM.mk ("closefail") (some (GoErr.str ("closeboom"))))]
    [UResolverM.mk ("good") none,
      UResolverM.mk ("closefail") (some (GoErr.str ("closeboom")))] rfl

/-- Witness for C8: the shape of a concrete chain with one empty and one
non-empty bootstrap entry. -/
theorem newResolvers_shape_witness :
    newResolvers wMk [(""), ("good")] =
      ((if List.length [(""), ("good")] = 0 then [ResolverM.system]
        else List.map (resolverOf wMk) [(""), ("good")]),
        List.filterMap (upstreamOf wMk) [(""), ("good")], none) :=
  newResolvers_shape wMk [(""), ("good")] (by decide)

/-- Concrete stamp host splitter used by the witness theorems (always
failing, so the whole address is used as the host). -/
def wSplitHost : String → Option String := fun _ => none

/-- Concrete IP parser used by the witness theorems (every string parses,
represented by itself). -/
def wParseIP : String → Option String := fun s => some s

/-- Witness for C6: a stamp address 4.5.6.7 replaces a previously
configured server list 9.9.9.9 wholesale at a concrete input. -/
theorem parseStamp_replaces_server_addrs_witness :
    parseStampServerAddr wSplitHost wParseIP ("4.5.6.7") wOptsFast =
      Except.ok { wOptsFast with serverIPAddrs := [("4.5.6.7")] } :=
  parseStamp_replaces_server_addrs wSplitHost wParseIP ("4.5.6.7") wOptsFast ("4.5.6.7")
    (by decide) rfl

/-- Concrete URL parser used by the witness theorems (always failing). -/
def wUrlParse : String → Except String URLm := fun _ => Except.error ("no url")

/-- Concrete bare-address splitter used by the witness theorems. -/
def wSp : String → Option (String × String) := fun _ => some (("host"), ("70000"))

/-- Witness for C7: the bare input with colon-delimited suffix 70000, an
out-of-range port, is rejected at a concrete input. -/
theorem addressToUpstream_malformed_iff_witness :
    ∃ msg, addressToUpstreamParse wUrlParse wSp ("host:70000") = Except.error msg :=
  (addressToUpstream_malformed_iff wUrlParse wSp ("host:70000")).1.mpr
    (Or.inr ⟨by decide, ("host"), ("70000"), rfl, by decide⟩)

/-- Witness for C9: a concrete A-type response whose answer holds an IP in
a configured subnet is classified as bogus. -/
theorem isBogusNXDomain_iff_witness :
    isBogusNXDomain (fun (_ : String) => true) (fun n ip => n == ip) (fun (rr : String) => rr)
        [("10.0.0.1")]
        (some { question := [1], answer := [("10.0.0.1")] }) = true :=
  (isBogusNXDomain_iff (fun (_ : String) => true) (fun n ip => n == ip)
      (fun (rr : String) => rr) [("10.0.0.1")]
      (some { question := [1], answer := [("10.0.0.1")] })).mpr
    ⟨{ question := [1], answer := [("10.0.0.1")] }, rfl, by decide, by decide, Or.inl rfl,
      ("10.0.0.1"), by decide, rfl, ("10.0.0.1"), by decide, by decide⟩
